import Mathlib

/-
Verification of the batching and resilient-transport subsystem of the pnpjs
SharePoint package: a shallow embedding of
  src/packages/sp/batch.ts        (SPBatch.ParseResponse, SPBatch.executeImpl)
  src/packages/sp/sphttpclient.ts (SPHttpClient.fetch, SPHttpClient.fetchRaw,
                                   getDigestFactory / the digest cache)
together with theorems settling the frozen claims about this code.

Modelling conventions:
  * JS strings are Lean `String`s; `Date` instants are `Nat` ticks (seconds for
    the digest cache, where `dateAdd(d, "second", n)` adds `n`).
  * A fetch-client instance (`IHttpClientImpl`) is identified by a `Nat`; a JS
    `undefined` fetch client is `Option.none`.  JS `!==` on object identity is
    `≠` on these identities.
  * The platform `Headers` class (external to the repository) is modelled as an
    insertion-ordered association list with case-insensitive names, `set`
    replacing the value in place and `append` adding at the end.  `mergeHeaders`
    of @pnp/common (an out-of-scope utility, spec section 1) is modelled per the
    spec's words as setting every source pair onto the target ("local options
    overriding global config", spec section 4.2).
  * Promise-based code becomes explicit state passing: the retry loop of
    `fetchRaw` takes the underlying transport as a function from the attempt
    number to its outcome, and records the scheduled waits and the number of
    transport calls; the batch settlement chain becomes a list of settlement
    events in the order the promises are resolved.
-/

deriving instance DecidableEq for Except

namespace PnpSP

/-- JS `String.prototype.toLowerCase` for the ASCII header names this code
compares. -/
def jsToLower (s : String) : String :=
  String.mk (s.data.map Char.toLower)

/-- JS `String.prototype.toUpperCase` for the ASCII method names this code
compares. -/
def jsToUpper (s : String) : String :=
  String.mk (s.data.map Char.toUpper)

/-- The loop behind `jsSplitNewline`. -/
def splitNewlineAux : List Char → List Char → List String
  | [], acc => [String.mk acc.reverse]
  | c :: cs, acc =>
    if c = '\n' then String.mk acc.reverse :: splitNewlineAux cs []
    else splitNewlineAux cs (c :: acc)

/-- JS `body.split("\n")`: the pieces between newline separators, with a
leading/trailing/duplicated separator contributing empty pieces. -/
def jsSplitNewline (s : String) : List String :=
  splitNewlineAux s.data []

/-- JS `line.substr(0, header.length) === header` (a prefix test). -/
def jsStartsWith (s pre : String) : Bool :=
  pre.data.isPrefixOf s.data

/-- JS `String.prototype.trim`: strips leading and trailing whitespace. -/
def jsTrim (s : String) : String :=
  String.mk (((s.data.dropWhile Char.isWhitespace).reverse.dropWhile Char.isWhitespace).reverse)

/-- Model of the platform `Response` used by batch.ts and sphttpclient.ts.
`Response()` with no arguments defaults to status 200, empty statusText and
empty body; `new Response(line, {status, statusText})` carries those values. -/
structure MResponse where
  status : Nat := 200
  statusText : String := ""
  headers : List (String × String) := []
  body : String := ""
deriving DecidableEq, Repr

/-! ### Header utilities (model of the platform Headers class and of the
out-of-scope @pnp/common helpers `mergeHeaders` and `assign`) -/

/-- `Headers.has`: case-insensitive name lookup. -/
def hhas (hs : List (String × String)) (n : String) : Bool :=
  hs.any (fun p => jsToLower p.1 = jsToLower n)

/-- `Headers.get`: value of the first entry with the (case-insensitive) name;
the callers in this code only call it after a `has` check. -/
def hget (hs : List (String × String)) (n : String) : String :=
  match hs.find? (fun p => jsToLower p.1 = jsToLower n) with
  | some p => p.2
  | none => ""

/-- `Headers.append`: adds an entry at the end. -/
def happend (hs : List (String × String)) (n v : String) : List (String × String) :=
  hs ++ [(n, v)]

/-- `Headers.set`: replaces the value of an existing (case-insensitive) name in
place, otherwise appends. -/
def hset (hs : List (String × String)) (n v : String) : List (String × String) :=
  if hs.any (fun p => jsToLower p.1 = jsToLower n) then
    hs.map (fun p => if jsToLower p.1 = jsToLower n then (p.1, v) else p)
  else hs ++ [(n, v)]

/-- Modelled from the spec: @pnp/common `mergeHeaders(target, source)` (an
out-of-scope utility) writes every source header onto the target so that later
merges override earlier ones (spec sections 4.2 and 4.3). -/
def mergeHeadersM (target source : List (String × String)) : List (String × String) :=
  source.foldl (fun t p => hset t p.1 p.2) target

/-- Modelled from the spec: @pnp/common `assign(target, source, true)` (an
out-of-scope utility) copies onto a plain object only the source properties the
target does not already have (JS object keys, hence case-sensitive). -/
def assignNoOverwrite (target source : List (String × String)) : List (String × String) :=
  source.foldl (fun t p => if t.any (fun q => q.1 = p.1) then t else t ++ [p]) target

/-- JS `parseInt(s, 10)` for the nonnegative decimal strings this code reads
(digit-string regex captures and `Retry-After` header values): the numeric
value of the leading run of decimal digits. -/
def jsParseInt (s : String) : Nat :=
  (s.data.takeWhile Char.isDigit).foldl (fun n c => n * 10 + (c.toNat - 48)) 0

/-! ## SPBatch.ParseResponse (batch.ts lines 35-88) -/

/-- The decoder states of the line-oriented state machine. -/
inductive PState where
  | batch
  | batchHeaders
  | status
  | statusHeaders
  | bodyS
deriving DecidableEq, Repr

/-- How ParseResponse can throw.  `typeErrorNull` is the `TypeError` raised by
`parts.length` when `statusRegExp.exec(line)` returned `null`; it carries no
line number.  `invalidStatus` models the `Invalid status, line ${i}` branch,
which is unreachable: a successful `exec` of this regex always yields an array
of length 3 (the full match plus the two capture groups). -/
inductive ParseErr where
  | invalidResponse (i : Nat)
  | invalidStatus (i : Nat)
  | typeErrorNull
  | unexpectedEnd
deriving DecidableEq, Repr

/-- `statusRegExp.exec(line)` for
`new RegExp("^HTTP/[0-9.]+ +([0-9]+) +(.*)", "i")`: the two capture groups on
a match, `none` when the regex does not match.  Greedy matching of each atom is
equivalent to the regex with backtracking here because every atom's character
class is disjoint from the character that must follow it. -/
def execStatusRegExp (line : String) : Option (String × String) :=
  match line.data with
  | c1 :: c2 :: c3 :: c4 :: c5 :: rest =>
    if c1.toLower = 'h' && c2.toLower = 't' && c3.toLower = 't' && c4.toLower = 'p' && c5 = '/' then
      let v := rest.span (fun c => c.isDigit || c = '.')
      if v.1.isEmpty then none else
      let s1 := v.2.span (fun c => c = ' ')
      if s1.1.isEmpty then none else
      let code := s1.2.span Char.isDigit
      if code.1.isEmpty then none else
      let s2 := code.2.span (fun c => c = ' ')
      if s2.1.isEmpty then none else
      some (String.mk code.1, String.mk s2.2)
    else none
  | _ => none

/-- batch.ts line 77: the `body` state emits
`(status === 204) ? new Response() : new Response(line, {status, statusText})`. -/
def emitBodyResponse (status : Nat) (statusText : String) (line : String) : MResponse :=
  if status = 204 then {} else { status := status, statusText := statusText, body := line }

/-- The loop of ParseResponse over the lines of the split body, carrying the
line index `i`, the state, and the `status` / `statusText` registers. -/
def parseLines : List String → Nat → PState → Nat → String → List MResponse →
    Except ParseErr (List MResponse)
  | [], _, st, _, _, acc =>
    if st ≠ PState.status then Except.error ParseErr.unexpectedEnd else Except.ok acc
  | line :: rest, i, st, status, statusText, acc =>
    match st with
    | PState.batch =>
      if jsStartsWith line ("--batchresponse_") then
        parseLines rest (i + 1) PState.batchHeaders status statusText acc
      else if jsTrim line ≠ "" then Except.error (ParseErr.invalidResponse i)
      else parseLines rest (i + 1) PState.batch status statusText acc
    | PState.batchHeaders =>
      if jsTrim line = "" then parseLines rest (i + 1) PState.status status statusText acc
      else parseLines rest (i + 1) PState.batchHeaders status statusText acc
    | PState.status =>
      match execStatusRegExp line with
      | none => Except.error ParseErr.typeErrorNull
      | some parts =>
        parseLines rest (i + 1) PState.statusHeaders (jsParseInt parts.1) parts.2 acc
    | PState.statusHeaders =>
      if jsTrim line = "" then parseLines rest (i + 1) PState.bodyS status statusText acc
      else parseLines rest (i + 1) PState.statusHeaders status statusText acc
    | PState.bodyS =>
      parseLines rest (i + 1) PState.batch status statusText
        (acc ++ [emitBodyResponse status statusText line])

/-- `SPBatch.ParseResponse(body)`: split on newline, run the state machine from
state `batch`. -/
def ParseResponseModel (body : String) : Except ParseErr (List MResponse) :=
  parseLines (jsSplitNewline body) 0 PState.batch 0 "" []

/-! ## The fetch-client homogeneity check (batch.ts lines 94-101) -/

/-- One pending request of a batch, as executeImpl consumes it: `method`,
`url`, its `options.headers`, its `options.body` (none for a JS-falsy body) and
the identity of its `options.fetchClient`. -/
structure BatchReqInfo where
  method : String
  url : String
  headers : List (String × String) := []
  body : Option String := none
  fetchClient : Option Nat := none
deriving DecidableEq, Repr

/-- The loop of batch.ts lines 94-101.  `first` is
`this.requests[0].options.fetchClient`: the source compares the FIRST request's
fetch client against the batch's own at every index `i`, and reports request
`#(i+1)` when that comparison fails. -/
def fetchClientCheckFrom (batchFC first : Option Nat) : Nat → List BatchReqInfo → Option String
  | _, [] => none
  | i, r :: rest =>
    if first ≠ batchFC then
      some (s!"Request #{i + 1} cannot have different fetch client configuration than the batch ({r.method} {r.url})!")
    else fetchClientCheckFrom batchFC first (i + 1) rest

/-- The homogeneity pre-check of executeImpl: `none` means no error thrown. -/
def batchFetchClientCheck (batchFC : Option Nat) (reqs : List BatchReqInfo) : Option String :=
  match reqs with
  | [] => none
  | r0 :: _ => fetchClientCheckFrom batchFC r0.fetchClient 0 reqs

/-! ## SPHttpClient.fetchRaw: the retry loop (sphttpclient.ts lines 70-138) -/

/-- The retry context built at sphttpclient.ts lines 130-136 (without the
resolve/reject callbacks, which become the outcome of the loop). -/
structure RetryCtx where
  attempts : Nat
  delay : Nat
  retryCount : Nat
deriving DecidableEq, Repr

/-- How one `fetchClient.fetch` attempt can settle: the promise resolves with a
response, or rejects with a response-like value carrying a status. -/
inductive FetchOutcome where
  | resolved (r : MResponse)
  | rejected (r : MResponse)
deriving DecidableEq, Repr

/-- How the whole `fetchRaw` promise settles. -/
inductive RetryOutcome where
  | resolvedR (r : MResponse)
  | rejectedErr (msg : String)
  | rejectedResp (r : MResponse)
deriving DecidableEq, Repr

/-- The result of the retry loop together with the waits scheduled between the
attempts (milliseconds, in order) and the number of transport calls made. -/
structure RetryTrace where
  outcome : RetryOutcome
  waits : List Nat
  calls : Nat
deriving DecidableEq, Repr

/-- sphttpclient.ts lines 80-94 (the part of `setRetry` before the budget
check): the wait delay picked for this retry, and the mutated context.  With a
`Retry-After` header the delay is that many seconds in milliseconds and the
backoff `ctx.delay` is untouched; without it the delay is the current backoff,
which is then doubled.  `ctx.attempts` is incremented in both cases. -/
def setRetryModel (r : MResponse) (ctx : RetryCtx) : Nat × RetryCtx :=
  if hhas r.headers ("Retry-After") then
    (jsParseInt (hget r.headers ("Retry-After")) * 1000,
     { ctx with attempts := ctx.attempts + 1 })
  else
    (ctx.delay,
     { ctx with delay := ctx.delay * 2, attempts := ctx.attempts + 1 })

/-- The message of sphttpclient.ts line 98:
`Retry count exceeded (${ctx.retryCount}) for request. Response status: [${response.status}] ${response.statusText}`. -/
def retryExceededMsg (retryCount status : Nat) (statusText : String) : String :=
  s!"Retry count exceeded ({retryCount}) for request. Response status: [{status}] {statusText}"

/-- The recursive `retry` closure of fetchRaw (lines 77-126). `transport n` is
the settlement of the n-th `fetchClient.fetch` call (0-based).  A resolved
response retries only on status 429; a rejected response retries only on
status 503 or 504; everything else is terminal.  Lines 96-102: after `setRetry`
mutates the context, the loop rejects with the retry-count-exceeded error once
`ctx.retryCount <= ctx.attempts`, and otherwise schedules the next attempt
after the picked delay. -/
def retryLoop (transport : Nat → FetchOutcome) (call : Nat) (ctx : RetryCtx) : RetryTrace :=
  match transport call with
  | FetchOutcome.resolved r =>
    if r.status = 429 then
      let d := (setRetryModel r ctx).1
      let ctx2 := (setRetryModel r ctx).2
      if h : ctx2.retryCount ≤ ctx2.attempts then
        { outcome := RetryOutcome.rejectedErr (retryExceededMsg ctx2.retryCount r.status r.statusText),
          waits := [], calls := 1 }
      else
        let t := retryLoop transport (call + 1) ctx2
        { outcome := t.outcome, waits := d :: t.waits, calls := t.calls + 1 }
    else { outcome := RetryOutcome.resolvedR r, waits := [], calls := 1 }
  | FetchOutcome.rejected r =>
    if r.status = 503 || r.status = 504 then
      let d := (setRetryModel r ctx).1
      let ctx2 := (setRetryModel r ctx).2
      if h : ctx2.retryCount ≤ ctx2.attempts then
        { outcome := RetryOutcome.rejectedErr (retryExceededMsg ctx2.retryCount r.status r.statusText),
          waits := [], calls := 1 }
      else
        let t := retryLoop transport (call + 1) ctx2
        { outcome := t.outcome, waits := d :: t.waits, calls := t.calls + 1 }
    else { outcome := RetryOutcome.rejectedResp r, waits := [], calls := 1 }
termination_by ctx.retryCount - ctx.attempts
decreasing_by
  all_goals (
    have ha : (setRetryModel r ctx).2.attempts = ctx.attempts + 1 := by
      unfold setRetryModel; split <;> rfl
    have hr : (setRetryModel r ctx).2.retryCount = ctx.retryCount := by
      unfold setRetryModel; split <;> rfl
    have h2 : ¬ (setRetryModel r ctx).2.retryCount ≤ (setRetryModel r ctx).2.attempts := h
    rw [ha, hr] at h2
    show (setRetryModel r ctx).2.retryCount - (setRetryModel r ctx).2.attempts <
      ctx.retryCount - ctx.attempts
    rw [ha, hr]
    omega)

/-- `fetchRaw`: the retry loop started with the context of lines 130-136
(`attempts: 0, delay: 100, retryCount: 7`). -/
def fetchRawModel (transport : Nat → FetchOutcome) : RetryTrace :=
  retryLoop transport 0 { attempts := 0, delay := 100, retryCount := 7 }

/-! ## The digest cache (sphttpclient.ts lines 181-250) -/

/-- `ICachedDigest`: expiration instant (seconds) and token value. -/
structure CachedDigest where
  expiration : Nat
  value : String
deriving DecidableEq, Repr

/-- The `WeakMap<IHttpClientImpl, Map<string, ICachedDigest>>` of cached
digests, flattened to one association list keyed by the pair
(fetch-client identity, web URL). -/
abbrev DigestCache := List ((Nat × String) × CachedDigest)

/-- `Map.get` on the flattened cache. -/
def cacheGet : DigestCache → Nat × String → Option CachedDigest
  | [], _ => none
  | e :: rest, k => if e.1 = k then some e.2 else cacheGet rest k

/-- `Map.set` on the flattened cache: replaces the entry of an existing key,
otherwise inserts. -/
def cacheSet : DigestCache → Nat × String → CachedDigest → DigestCache
  | [], k, v => [(k, v)]
  | e :: rest, k, v => if e.1 = k then (k, v) :: rest else e :: cacheSet rest k v

/-- The result of one call through the function returned by
`getDigestFactory`: the token handed back, the cache afterwards, and how many
network (issuance) requests were made. -/
structure DigestCallResult where
  value : String
  cache : DigestCache
  networkCalls : Nat
deriving DecidableEq, Repr

/-- One call of the `IGetDigest` closure (sphttpclient.ts lines 211-249).
`now` is the current instant in seconds; `refresh` is the
`(FormDigestValue, FormDigestTimeoutSeconds)` pair the issuance endpoint would
return, parsed from its response.  On a cached entry with `now` strictly
before its expiration the cached value is returned with no network call and no
cache change; otherwise one issuance request is made and the entry for the key
is replaced with the fresh value expiring at `now + lifetime`
(`dateAdd(new Date(), "second", parsed.FormDigestTimeoutSeconds)`). -/
def digestCall (cache : DigestCache) (now fc : Nat) (webUrl : String)
    (refresh : String × Nat) : DigestCallResult :=
  match cacheGet cache (fc, webUrl) with
  | some cachedDigest =>
    if now < cachedDigest.expiration then
      { value := cachedDigest.value, cache := cache, networkCalls := 0 }
    else
      let newCachedDigest : CachedDigest := { expiration := now + refresh.2, value := refresh.1 }
      { value := newCachedDigest.value,
        cache := cacheSet cache (fc, webUrl) newCachedDigest,
        networkCalls := 1 }
  | none =>
    let newCachedDigest : CachedDigest := { expiration := now + refresh.2, value := refresh.1 }
    { value := newCachedDigest.value,
      cache := cacheSet cache (fc, webUrl) newCachedDigest,
      networkCalls := 1 }

/-- The headers of the digest-issuance request (sphttpclient.ts lines
226-235): the two JSON headers, with the global config headers assigned
without overwriting. -/
def contextinfoHeaders (globalHeaders : List (String × String)) : List (String × String) :=
  assignNoOverwrite
    [("Accept", "application/json;odata=verbose"),
     ("Content-Type", "application/json;odata=verbose;charset=utf-8")]
    globalHeaders

/-- The digest-issuance call as getDigestFactory builds it (lines 224-237):
a POST to `<webUrl>/_api/contextinfo` sent through `client.fetchRaw`.  The url
is kept as the pair of parts that @pnp/common `combine` (an out-of-scope
utility) joins. -/
structure ContextinfoCall where
  urlBase : String
  urlSuffix : String
  method : String
  headers : List (String × String)
deriving DecidableEq, Repr

/-- Builds the issuance call of sphttpclient.ts lines 224-237. -/
def contextinfoCall (webUrl : String) (globalHeaders : List (String × String)) :
    ContextinfoCall :=
  { urlBase := webUrl, urlSuffix := "/_api/contextinfo", method := "POST",
    headers := contextinfoHeaders globalHeaders }

/-! ## SPHttpClient.fetch (sphttpclient.ts lines 24-68) -/

/-- sphttpclient.ts lines 28-55: the header pipeline of `fetch` — global
config headers, then the per-call headers over them, then the three defaults
(`Accept`, `Content-Type`, and the truncated `X-ClientService-ClientTag`,
whose method-name part `tag.getClientTag(headers)` is the out-of-scope
telemetry collaborator and is passed in). -/
def spFetchHeaders (globalHeaders localHeaders : List (String × String))
    (methodName : String) : List (String × String) :=
  let headers := mergeHeadersM (mergeHeadersM [] globalHeaders) localHeaders
  let headers := if hhas headers ("Accept") then headers
    else happend headers ("Accept") ("application/json")
  let headers := if hhas headers ("Content-Type") then headers
    else happend headers ("Content-Type") ("application/json;odata=verbose;charset=utf-8")
  if hhas headers ("X-ClientService-ClientTag") then headers
  else
    let clientTag := s!"PnPCoreJS:$$Version$$:{methodName}"
    let clientTag := if clientTag.length > 32 then String.mk (clientTag.data.take 32) else clientTag
    happend headers ("X-ClientService-ClientTag") clientTag

/-- sphttpclient.ts lines 72-75: fetchRaw normalizes the headers it was given
into a fresh `Headers` object before the retry loop sends them. -/
def fetchRawHeadersM (hs : List (String × String)) : List (String × String) :=
  mergeHeadersM [] hs

/-- What `SPHttpClient.fetch` does before handing off to `fetchRaw`: the
headers actually sent, and the digest-cache key queried (`none` when no digest
was fetched). -/
structure SPFetchResult where
  sentHeaders : List (String × String)
  digestQuery : Option String
deriving DecidableEq, Repr

/-- sphttpclient.ts lines 24-67.  `method` is `opts.method` (`none` for a JS
`undefined`); the guard of line 60 requires a truthy method whose uppercasing
is not "GET" and the absence of both the `X-RequestDigest` and the
`Authorization` header from the merged headers.  When it holds, the digest
for `extractWebUrl(url)` (the out-of-scope URL utility, passed in) is fetched
through the digest cache and appended as `X-RequestDigest`. -/
def spFetchModel (globalHeaders localHeaders : List (String × String))
    (method : Option String) (methodName : String)
    (extractWebUrl : String → String) (url digestValue : String) : SPFetchResult :=
  let headers := spFetchHeaders globalHeaders localHeaders methodName
  let doDigest :=
    match method with
    | none => false
    | some m =>
      m ≠ "" && jsToUpper m ≠ "GET" &&
        !(hhas headers ("X-RequestDigest")) && !(hhas headers ("Authorization"))
  if doDigest then
    { sentHeaders := fetchRawHeadersM (happend headers ("X-RequestDigest") digestValue),
      digestQuery := some (extractWebUrl url) }
  else
    { sentHeaders := fetchRawHeadersM headers, digestQuery := none }

/-! ## Per-request settlement of a decoded batch (batch.ts lines 241-264) -/

/-- How one pending request is settled: `request.resolve(parsedValue)` or
`request.reject(error)`. -/
inductive SettleEvent where
  | resolvedE (idx : Nat) (value : String)
  | rejectedE (idx : Nat) (err : String)
deriving DecidableEq, Repr

/-- The request index a settlement event concerns. -/
def SettleEvent.idx : SettleEvent → Nat
  | SettleEvent.resolvedE i _ => i
  | SettleEvent.rejectedE i _ => i

/-- batch.ts lines 249-264: the `responses.reduce` promise chain settles the
requests one at a time in index order, awaiting `request.parser.parse` for
each; a throwing parse rejects that request only and the chain continues.
`parse i r` is request i's own parser applied to its decoded response. -/
def resolveLoop (parse : Nat → MResponse → Except String String) :
    Nat → List MResponse → List SettleEvent
  | _, [] => []
  | i, r :: rest =>
    (match parse i r with
     | Except.ok v => SettleEvent.resolvedE i v
     | Except.error e => SettleEvent.rejectedE i e) :: resolveLoop parse (i + 1) rest

/-- batch.ts lines 239-264 after the response text is parsed: the part-count
check of lines 241-243 throws the batch-level error before any request's
parser runs; on a matching count the requests are settled in order. -/
def settleBatch (parse : Nat → MResponse → Except String String)
    (nRequests : Nat) (responses : List MResponse) : Except String (List SettleEvent) :=
  if responses.length ≠ nRequests then
    Except.error ("Could not properly parse responses to match requests in batch.")
  else Except.ok (resolveLoop parse 0 responses)

/-! ## The batch body encoder (batch.ts lines 120-225) -/

/-- Modelled from the spec: @pnp/common `isUrlAbsolute` (an out-of-scope URL
utility): a URL is absolute when it starts with an http(s) scheme or is
protocol-relative. -/
def isUrlAbsolute (url : String) : Bool :=
  jsStartsWith url ("https://") || jsStartsWith url ("http://") || jsStartsWith url ("//")

/-- Modelled from the spec: @pnp/common `combine` (an out-of-scope URL
utility) joins two URL parts with exactly one slash between them. -/
def combineUrl (l r : String) : String :=
  String.mk (l.data.reverse.dropWhile (fun c => c = '/')).reverse ++ "/" ++
    String.mk (r.data.dropWhile (fun c => c = '/'))

/-- JS `delete castHeaders["X-HTTP-Method"]`: removing the (case-sensitive)
object property. -/
def removeXHttpMethod (hs : List (String × String)) : List (String × String) :=
  hs.filter (fun p => p.1 ≠ "X-HTTP-Method")

/-- JS `castHeaders["X-HTTP-Method"] !== undefined`: the (case-sensitive)
property value, if any. -/
def lookupXHttpMethod (hs : List (String × String)) : Option String :=
  (hs.find? (fun p => p.1 = "X-HTTP-Method")).map (fun p => p.2)

/-- batch.ts lines 149-216: the strings pushed for one request after its
boundary prelude — the two common part headers, the HTTP request line (with
the `X-HTTP-Method` override applied and stripped for non-GET requests), the
merged headers (the verbose JSON Content-Type set first for non-GET requests,
then the global config headers, then the per-request headers, then the three
defaults), a blank line, and the body when JS-truthy.  A URL that is still not
absolute after resolution against the batch base URL throws the encoding
error of line 162 for request `#(i+1)`. -/
def partRequestLines (globalHeaders : List (String × String)) (absoluteRequestUrl : String)
    (i : Nat) (r : BatchReqInfo) : Except String (List String) :=
  let url := if isUrlAbsolute r.url then r.url else combineUrl absoluteRequestUrl r.url
  if ¬ isUrlAbsolute url then
    Except.error
      (s!"Request #{i + 1} must have absolute URL. Make sure configuration is correct ({r.method} {r.url})!")
  else
    let common := ["Content-Type: application/http\n", "Content-Transfer-Encoding: binary\n\n"]
    if r.method ≠ "GET" then
      let methodAndHeaders :=
        match lookupXHttpMethod r.headers with
        | some m => (m, removeXHttpMethod r.headers)
        | none => (r.method, r.headers)
      let headers := hset [] ("Content-Type") ("application/json;odata=verbose;charset=utf-8")
      let headers := mergeHeadersM headers globalHeaders
      let headers := mergeHeadersM headers methodAndHeaders.2
      let headers := if hhas headers ("Accept") then headers
        else happend headers ("Accept") ("application/json")
      let headers := if hhas headers ("Content-Type") then headers
        else happend headers ("Content-Type") ("application/json;odata=verbose;charset=utf-8")
      let headers := if hhas headers ("X-ClientService-ClientTag") then headers
        else happend headers ("X-ClientService-ClientTag") ("PnPCoreJS:@pnp-$$Version$$:batch")
      let headerLines := headers.map (fun p => s!"{p.1}: {p.2}\n")
      let bodyLines :=
        match r.body with
        | some b => if b ≠ "" then [s!"{b}\n\n"] else []
        | none => []
      Except.ok (common ++ [s!"{methodAndHeaders.1} {url} HTTP/1.1\n"] ++
        headerLines ++ ["\n"] ++ bodyLines)
    else
      let headers := mergeHeadersM ([] : List (String × String)) globalHeaders
      let headers := mergeHeadersM headers r.headers
      let headers := if hhas headers ("Accept") then headers
        else happend headers ("Accept") ("application/json")
      let headers := if hhas headers ("Content-Type") then headers
        else happend headers ("Content-Type") ("application/json;odata=verbose;charset=utf-8")
      let headers := if hhas headers ("X-ClientService-ClientTag") then headers
        else happend headers ("X-ClientService-ClientTag") ("PnPCoreJS:@pnp-$$Version$$:batch")
      let headerLines := headers.map (fun p => s!"{p.1}: {p.2}\n")
      let bodyLines :=
        match r.body with
        | some b => if b ≠ "" then [s!"{b}\n\n"] else []
        | none => []
      Except.ok (common ++ [s!"{r.method} {url} HTTP/1.1\n"] ++
        headerLines ++ ["\n"] ++ bodyLines)

/-- batch.ts lines 124-225: the encoding loop over the requests.  `guid g` is
the g-th value `getGUID()` returns; `gidx` counts the GUIDs consumed so far;
`cs` is `currentChangeSetId` (the empty string when no changeset is open);
`i` is the request index.  A GET request first closes any open changeset and
opens a top-level batch part; a non-GET request opens a new changeset when
none is open and always adds a changeset boundary part.  After the last
request the loop closes any open changeset and writes the final batch close
marker. -/
def encodeBodyLoop (batchId : String) (guid : Nat → String)
    (globalHeaders : List (String × String)) (absoluteRequestUrl : String) :
    Nat → Nat → String → List BatchReqInfo → Except String (List String)
  | _, _, cs, [] =>
    Except.ok ((if cs ≠ "" then [s!"--changeset_{cs}--\n\n"] else []) ++
      [s!"--batch_{batchId}--\n"])
  | gidx, i, cs, r :: rest =>
    if r.method = "GET" then
      Except.bind (partRequestLines globalHeaders absoluteRequestUrl i r) (fun pl =>
        Except.bind (encodeBodyLoop batchId guid globalHeaders absoluteRequestUrl gidx (i + 1) "" rest)
          (fun out =>
            Except.ok ((if cs ≠ "" then [s!"--changeset_{cs}--\n\n"] else []) ++
              [s!"--batch_{batchId}\n"] ++ pl ++ out)))
    else
      if cs = "" then
        let g := guid gidx
        Except.bind (partRequestLines globalHeaders absoluteRequestUrl i r) (fun pl =>
          Except.bind
            (encodeBodyLoop batchId guid globalHeaders absoluteRequestUrl (gidx + 1) (i + 1) g rest)
            (fun out =>
              Except.ok ([s!"--batch_{batchId}\n",
                s!"Content-Type: multipart/mixed; boundary=\"changeset_{g}\"\n\n",
                s!"--changeset_{g}\n"] ++ pl ++ out)))
      else
        Except.bind (partRequestLines globalHeaders absoluteRequestUrl i r) (fun pl =>
          Except.bind (encodeBodyLoop batchId guid globalHeaders absoluteRequestUrl gidx (i + 1) cs rest)
            (fun out => Except.ok ([s!"--changeset_{cs}\n"] ++ pl ++ out)))

/-- The whole body built by executeImpl (lines 120-225): the loop started with
no open changeset at request index 0. -/
def buildBatchBody (batchId : String) (guid : Nat → String)
    (globalHeaders : List (String × String)) (absoluteRequestUrl : String)
    (reqs : List BatchReqInfo) : Except String (List String) :=
  encodeBodyLoop batchId guid globalHeaders absoluteRequestUrl 0 0 "" reqs

/-! ### The spec-side description of the grouping (spec section 4.3), used as
the reference for the refinement claim C7 -/

/-- A request is a write exactly when its method is not GET. -/
def isWrite (r : BatchReqInfo) : Bool :=
  r.method ≠ "GET"

/-- One item of the batch outline: a standalone top-level part for a read, or
a changeset (with its id) holding a run of consecutive writes. -/
inductive OutlineItem where
  | part (r : BatchReqInfo)
  | changeset (g : String) (ws : List BatchReqInfo)
deriving DecidableEq, Repr

/-- Modelled from the spec (section 4.3): requests are walked in order; a read
becomes a fresh top-level part; a maximal run of consecutive writes becomes
one changeset with a fresh changeset id. -/
def groupRequests (guid : Nat → String) : Nat → List BatchReqInfo → List OutlineItem
  | _, [] => []
  | gidx, r :: rest =>
    if r.method = "GET" then OutlineItem.part r :: groupRequests guid gidx rest
    else
      OutlineItem.changeset (guid gidx) (r :: rest.takeWhile isWrite) ::
        groupRequests guid (gidx + 1) (rest.dropWhile isWrite)
termination_by _ reqs => reqs.length
decreasing_by
  all_goals simp only [List.length_cons]
  · omega
  · exact Nat.lt_succ_of_le ((List.dropWhile_suffix isWrite).sublist.length_le)

/-- Renders the writes of one changeset: each write is preceded by the
changeset boundary line. -/
def renderWrites (globalHeaders : List (String × String)) (absoluteRequestUrl g : String) :
    Nat → List BatchReqInfo → Except String (List String)
  | _, [] => Except.ok []
  | i, w :: ws =>
    Except.bind (partRequestLines globalHeaders absoluteRequestUrl i w) (fun pl =>
      Except.bind (renderWrites globalHeaders absoluteRequestUrl g (i + 1) ws)
        (fun out => Except.ok ([s!"--changeset_{g}\n"] ++ pl ++ out)))

/-- Renders an outline back into the flat body: a part opens with the batch
boundary; a changeset opens with the batch boundary and its multipart
Content-Type, holds its writes, and closes with its close marker; the final
batch close marker ends the body. -/
def renderOutline (batchId : String) (globalHeaders : List (String × String))
    (absoluteRequestUrl : String) : Nat → List OutlineItem → Except String (List String)
  | _, [] => Except.ok [s!"--batch_{batchId}--\n"]
  | i, OutlineItem.part r :: rest =>
    Except.bind (partRequestLines globalHeaders absoluteRequestUrl i r) (fun pl =>
      Except.bind (renderOutline batchId globalHeaders absoluteRequestUrl (i + 1) rest)
        (fun out => Except.ok ([s!"--batch_{batchId}\n"] ++ pl ++ out)))
  | i, OutlineItem.changeset g ws :: rest =>
    Except.bind (renderWrites globalHeaders absoluteRequestUrl g i ws) (fun wl =>
      Except.bind (renderOutline batchId globalHeaders absoluteRequestUrl (i + ws.length) rest)
        (fun out =>
          Except.ok ([s!"--batch_{batchId}\n",
            s!"Content-Type: multipart/mixed; boundary=\"changeset_{g}\"\n\n"] ++ wl ++
            [s!"--changeset_{g}--\n\n"] ++ out)))

/-! ## Concrete fixtures used by the claims -/

/-- The GET request for `/a` of the round-trip example. -/
def reqA : BatchReqInfo := { method := "GET", url := "https://x/a" }

/-- The POST request for `/b` of the round-trip example. -/
def reqB : BatchReqInfo := { method := "POST", url := "https://x/b" }

/-- The POST request for `/c` of the round-trip example. -/
def reqC : BatchReqInfo := { method := "POST", url := "https://x/c" }

/-- The GET request for `/d` of the round-trip example. -/
def reqD : BatchReqInfo := { method := "GET", url := "https://x/d" }

/-- Six requests whose first five use fetch client 1 (the batch's own) while
request index 5 uses fetch client 2. -/
def cexBatchRequests : List BatchReqInfo :=
  [ { method := "GET", url := "https://x/u0", fetchClient := some 1 },
    { method := "GET", url := "https://x/u1", fetchClient := some 1 },
    { method := "GET", url := "https://x/u2", fetchClient := some 1 },
    { method := "GET", url := "https://x/u3", fetchClient := some 1 },
    { method := "GET", url := "https://x/u4", fetchClient := some 1 },
    { method := "POST", url := "https://x/u5", fetchClient := some 2 } ]

/-- A transport stub answering 429 with `Retry-After: 2` on the first call and
200 on every later call. -/
def retryAfterStub : Nat → FetchOutcome := fun n =>
  if n = 0 then
    FetchOutcome.resolved
      { status := 429, statusText := "Too Many Requests", headers := [("Retry-After", "2")] }
  else FetchOutcome.resolved { status := 200, statusText := "OK" }

/-- A transport stub answering 429 without a `Retry-After` header on the first
two calls and 200 afterwards. -/
def backoffStub : Nat → FetchOutcome := fun n =>
  if n < 2 then FetchOutcome.resolved { status := 429, statusText := "Too Many Requests" }
  else FetchOutcome.resolved { status := 200, statusText := "OK" }

/-- A per-request parser stub that fails for request 0 and succeeds for every
other request. -/
def w8parse : Nat → MResponse → Except String String := fun i _ =>
  if i = 0 then Except.error ("boom") else Except.ok ("fine")

/-- Two decoded responses. -/
def w8rs : List MResponse := [{}, {}]

/-! ## Helper lemmas -/

theorem hhas_map_replace (t : List (String × String)) (n v m : String) :
    hhas (t.map fun p => if jsToLower p.1 = jsToLower n then (p.1, v) else p) m = hhas t m := by
  induction t with
  | nil => rfl
  | cons q qs ih =>
    simp only [List.map_cons, hhas, List.any_cons] at ih ⊢
    rw [ih]
    congr 1
    split <;> rfl

theorem hhas_hset (t : List (String × String)) (n v m : String) :
    hhas (hset t n v) m = (hhas t m || decide (jsToLower n = jsToLower m)) := by
  unfold hset
  by_cases hmem : (t.any fun p => decide (jsToLower p.1 = jsToLower n)) = true
  · rw [if_pos hmem]
    rw [show hhas (t.map fun p => if jsToLower p.1 = jsToLower n then (p.1, v) else p) m
        = hhas t m from hhas_map_replace t n v m]
    by_cases hn : jsToLower n = jsToLower m
    · have htm : hhas t m = true := by
        unfold hhas
        rw [← hn]
        exact hmem
      rw [htm]
      simp
    · simp [hn]
  · rw [if_neg hmem]
    unfold hhas
    simp [List.any_append]

theorem hhas_mergeHeadersM (t src : List (String × String)) (m : String) :
    hhas (mergeHeadersM t src) m = (hhas t m || hhas src m) := by
  induction src generalizing t with
  | nil => simp [mergeHeadersM, hhas]
  | cons p ps ih =>
    simp only [mergeHeadersM, List.foldl_cons] at *
    rw [ih (hset t p.1 p.2), hhas_hset]
    simp [hhas, Bool.or_assoc]

theorem hhas_fetchRawHeadersM (hs : List (String × String)) (m : String) :
    hhas (fetchRawHeadersM hs) m = hhas hs m := by
  rw [fetchRawHeadersM, hhas_mergeHeadersM]
  simp [hhas]

theorem hhas_assignNoOverwrite_false (t src : List (String × String)) (m : String)
    (ht : hhas t m = false) (hsrc : hhas src m = false) :
    hhas (assignNoOverwrite t src) m = false := by
  induction src generalizing t with
  | nil => simpa [assignNoOverwrite] using ht
  | cons p ps ih =>
    simp only [hhas, List.any_cons, Bool.or_eq_false_iff] at hsrc
    simp only [assignNoOverwrite, List.foldl_cons]
    by_cases hp : t.any (fun q => q.1 = p.1)
    · simpa [assignNoOverwrite, hp] using ih t ht hsrc.2
    · have ht2 : hhas (t ++ [p]) m = false := by
        simp [hhas, List.any_append] at ht ⊢
        exact ⟨ht, by simpa using hsrc.1⟩
      simpa [assignNoOverwrite, hp] using ih (t ++ [p]) ht2 hsrc.2

theorem cacheGet_cacheSet (c : DigestCache) (k : Nat × String) (v : CachedDigest) :
    cacheGet (cacheSet c k v) k = some v := by
  induction c with
  | nil => simp [cacheSet, cacheGet]
  | cons e rest ih =>
    by_cases he : e.1 = k
    · simp [cacheSet, cacheGet, he]
    · simp [cacheSet, cacheGet, he, ih]

theorem resolveLoop_length (parse : Nat → MResponse → Except String String) (k : Nat)
    (rs : List MResponse) : (resolveLoop parse k rs).length = rs.length := by
  induction rs generalizing k with
  | nil => rfl
  | cons r rest ih => simp [resolveLoop, ih]

theorem resolveLoop_map_idx (parse : Nat → MResponse → Except String String) (k : Nat)
    (rs : List MResponse) :
    (resolveLoop parse k rs).map SettleEvent.idx = List.range' k rs.length := by
  induction rs generalizing k with
  | nil => rfl
  | cons r rest ih =>
    cases hp : parse k r <;>
      simp [resolveLoop, hp, SettleEvent.idx, ih, List.range'_succ]

theorem resolveLoop_getElem (parse : Nat → MResponse → Except String String) (k i : Nat)
    (rs : List MResponse) (r : MResponse) (h : rs[i]? = some r) :
    (resolveLoop parse k rs)[i]? = some
      (match parse (k + i) r with
       | Except.ok v => SettleEvent.resolvedE (k + i) v
       | Except.error e => SettleEvent.rejectedE (k + i) e) := by
  induction rs generalizing k i with
  | nil => simp at h
  | cons x rest ih =>
    cases i with
    | zero =>
      simp only [List.getElem?_cons_zero, Option.some.injEq] at h
      subst h
      simp [resolveLoop]
    | succ j =>
      simp only [List.getElem?_cons_succ] at h
      have hrec := ih (k + 1) j h
      simp only [resolveLoop, List.getElem?_cons_succ]
      rw [hrec]
      have : k + 1 + j = k + (j + 1) := by omega
      rw [this]

theorem encodeBodyLoop_open (bid : String) (guid : Nat → String)
    (gh : List (String × String)) (absUrl g : String) (hg : g ≠ "") :
    ∀ (reqs : List BatchReqInfo) (gidx i : Nat),
    encodeBodyLoop bid guid gh absUrl gidx i g reqs =
      Except.bind (renderWrites gh absUrl g i (reqs.takeWhile isWrite)) (fun wl =>
        Except.bind (encodeBodyLoop bid guid gh absUrl gidx
            (i + (reqs.takeWhile isWrite).length) "" (reqs.dropWhile isWrite))
          (fun out => Except.ok (wl ++ [s!"--changeset_{g}--\n\n"] ++ out))) := by
  intro reqs
  induction reqs with
  | nil =>
    intro gidx i
    simp [encodeBodyLoop, renderWrites, hg, Except.bind]
  | cons r rest ih =>
    intro gidx i
    by_cases hm : r.method = "GET"
    · have hw : isWrite r = false := by simp [isWrite, hm]
      simp only [List.takeWhile_cons, List.dropWhile_cons, hw, Bool.false_eq_true, if_false,
        List.length_nil, Nat.add_zero]
      simp only [encodeBodyLoop, hm, if_true, renderWrites]
      cases hpl : partRequestLines gh absUrl i r with
      | error e => simp [hpl, Except.bind]
      | ok pl =>
        cases hrec : encodeBodyLoop bid guid gh absUrl gidx (i + 1) "" rest with
        | error e => simp [hpl, hrec, Except.bind]
        | ok out => simp [hpl, hrec, hg, Except.bind]
    · have hw : isWrite r = true := by simp [isWrite, hm]
      simp only [List.takeWhile_cons, List.dropWhile_cons, hw, if_true]
      simp only [encodeBodyLoop, hm, if_false, renderWrites]
      rw [ih gidx (i + 1)]
      rw [show i + (r :: rest.takeWhile isWrite).length
          = i + 1 + (rest.takeWhile isWrite).length from by simp; omega]
      cases hpl : partRequestLines gh absUrl i r with
      | error e => simp [hpl, Except.bind]
      | ok pl =>
        cases hrw : renderWrites gh absUrl g (i + 1) (rest.takeWhile isWrite) with
        | error e => simp [hpl, hrw, Except.bind, hg]
        | ok wl =>
          cases hrec : encodeBodyLoop bid guid gh absUrl gidx
              (i + 1 + (rest.takeWhile isWrite).length) "" (rest.dropWhile isWrite) with
          | error e => simp [hpl, hrw, hrec, Except.bind, hg]
          | ok out => simp [hpl, hrw, hrec, Except.bind, hg]

theorem encodeBodyLoop_eq_render (bid : String) (guid : Nat → String)
    (gh : List (String × String)) (absUrl : String) (hguid : ∀ k, guid k ≠ "") :
    ∀ (n : Nat) (reqs : List BatchReqInfo), reqs.length ≤ n → ∀ (gidx i : Nat),
    encodeBodyLoop bid guid gh absUrl gidx i "" reqs =
      renderOutline bid gh absUrl i (groupRequests guid gidx reqs) := by
  intro n
  induction n with
  | zero =>
    intro reqs h
    have hreqs : reqs = [] := List.eq_nil_of_length_eq_zero (Nat.le_zero.mp h)
    subst hreqs
    intro gidx i
    simp [encodeBodyLoop, groupRequests, renderOutline]
  | succ n ih =>
    intro reqs h gidx i
    cases reqs with
    | nil => simp [encodeBodyLoop, groupRequests, renderOutline]
    | cons r rest =>
      by_cases hm : r.method = "GET"
      · have h2 : rest.length ≤ n := by
          simp only [List.length_cons] at h
          omega
        simp only [encodeBodyLoop, groupRequests, hm, if_true, renderOutline]
        rw [ih rest h2 gidx (i + 1)]
        cases hpl : partRequestLines gh absUrl i r with
        | error e => simp [hpl, Except.bind]
        | ok pl =>
          cases hro : renderOutline bid gh absUrl (i + 1) (groupRequests guid gidx rest) with
          | error e => simp [hpl, hro, Except.bind]
          | ok out => simp [hpl, hro, Except.bind]
      · have hw : isWrite r = true := by simp [isWrite, hm]
        have h2 : (rest.dropWhile isWrite).length ≤ n := by
          have := (List.dropWhile_suffix (l := rest) isWrite).sublist.length_le
          simp only [List.length_cons] at h
          omega
        simp only [encodeBodyLoop, groupRequests, hm, if_false, renderOutline]
        rw [encodeBodyLoop_open bid guid gh absUrl (guid gidx) (hguid gidx) rest (gidx + 1) (i + 1)]
        rw [ih (rest.dropWhile isWrite) h2 (gidx + 1) (i + 1 + (rest.takeWhile isWrite).length)]
        rw [show i + (r :: rest.takeWhile isWrite).length
            = i + 1 + (rest.takeWhile isWrite).length from by simp; omega]
        simp only [renderWrites]
        cases hpl : partRequestLines gh absUrl i r with
        | error e => simp [hpl, Except.bind]
        | ok pl =>
          cases hrw : renderWrites gh absUrl (guid gidx) (i + 1) (rest.takeWhile isWrite) with
          | error e => simp [hpl, hrw, Except.bind]
          | ok wl =>
            cases hro : renderOutline bid gh absUrl (i + 1 + (rest.takeWhile isWrite).length)
                (groupRequests guid (gidx + 1) (rest.dropWhile isWrite)) with
            | error e => simp [hpl, hrw, hro, Except.bind]
            | ok out => simp [hpl, hrw, hro, Except.bind]

/-! ## The claims -/

/-- C1: the claim says every batch containing a request whose fetch-client
configuration differs from the batch's own is rejected with a fatal encoding
error naming the offending request before any network call.  The code's loop
(batch.ts lines 94-101) compares `requests[0].options.fetchClient` — never
`requests[i]` — against the batch's, contradicting its own comment that the
configuration "must be ... equal for all requests in the batch": with the
batch on fetch client 1, `cexBatchRequests` puts request index 5 on fetch
client 2 yet the check returns no error and the batch is sent. -/
theorem claim_C1 :
    batchFetchClientCheck (some 1) cexBatchRequests = none ∧
    cexBatchRequests.map BatchReqInfo.fetchClient =
      [some 1, some 1, some 1, some 1, some 1, some 2] := by
  exact ⟨rfl, rfl⟩

/-- C2: the claim says a non-matching line in decoder state `status` yields a
parse error citing that line's index.  In the code (batch.ts lines 62-70),
`statusRegExp.exec(line)` returns `null` on a non-match and the guard reads
`parts.length`, so the failure is a `TypeError` carrying no line index — the
`Invalid status, line ${i}` branch is unreachable because a successful `exec`
always has length 3.  On the body whose line 2 is `garbage` (read in state
`status`) the model therefore fails with the line-blind `typeErrorNull`; the
matching half of the claim behaves as stated (line 2 `HTTP/1.1 200 OK` is
captured as status 200, reason `OK`). -/
theorem claim_C2 :
    ParseResponseModel ("--batchresponse_x\n\ngarbage") =
      Except.error ParseErr.typeErrorNull ∧
    execStatusRegExp ("garbage") = none ∧
    execStatusRegExp ("HTTP/1.1 200 OK") = some ("200", "OK") ∧
    ParseResponseModel ("--batchresponse_x\n\nHTTP/1.1 200 OK\n\nbody\n--batchresponse_x--\n") =
      Except.ok [{ status := 200, statusText := "OK", headers := [], body := "body" }] := by
  refine ⟨by decide, by decide, by decide, by decide⟩

/-- C10: a part whose parsed status line carries code 204 is emitted as the
default-constructed `Response` — status 200 (the Response default), empty
statusText and empty body, dropping the parsed status, reason and body line —
while every other status code is emitted with the parsed status, the parsed
reason and the single body line (batch.ts line 77).  The end-to-end instance
decodes a 204 part (reason `No Content`, body line `X`) to the default
response and a 500 part to one carrying its parsed data. -/
theorem claim_C10 :
    (∀ (statusText line : String),
      emitBodyResponse 204 statusText line =
        { status := 200, statusText := "", headers := [], body := "" }) ∧
    (∀ (status : Nat) (statusText line : String), status ≠ 204 →
      emitBodyResponse status statusText line =
        { status := status, statusText := statusText, headers := [], body := line }) ∧
    ParseResponseModel ("--batchresponse_abc\nContent-Type: application/http\n\nHTTP/1.1 204 No Content\n\nX\n--batchresponse_abc\n\nHTTP/1.1 500 Internal Server Error\n\noops\n--batchresponse_abc--\n") =
      Except.ok [{ status := 200, statusText := "", headers := [], body := "" },
        { status := 500, statusText := "Internal Server Error", headers := [], body := "oops" }] := by
  refine ⟨fun statusText line => rfl, fun status statusText line h => ?_, by decide⟩
  simp [emitBodyResponse, h]

/-- Witness for C10 at status 500. -/
theorem claim_C10_witness :
    (500 : Nat) ≠ 204 ∧
    emitBodyResponse 500 ("Internal Server Error") ("oops") =
      { status := 500, statusText := "Internal Server Error", headers := [], body := "oops" } :=
  ⟨by decide, claim_C10.2.1 500 ("Internal Server Error") ("oops") (by decide)⟩

/-- C8: after decoding, the requests are settled strictly in the original
append order (the settlement events' indices are `0, 1, …, n-1` in order), the
i-th settlement is exactly request i's own parse result, and a parse failure
at one index rejects only that request while every other request is still
settled (the event list always has one event per response). -/
theorem claim_C8 :
    ∀ (parse : Nat → MResponse → Except String String) (rs : List MResponse),
    (resolveLoop parse 0 rs).length = rs.length ∧
    (resolveLoop parse 0 rs).map SettleEvent.idx = List.range rs.length ∧
    (∀ (i : Nat) (r : MResponse), rs[i]? = some r →
      (resolveLoop parse 0 rs)[i]? = some
        (match parse i r with
         | Except.ok v => SettleEvent.resolvedE i v
         | Except.error e => SettleEvent.rejectedE i e)) ∧
    (∀ (i : Nat) (r : MResponse) (e : String), rs[i]? = some r → parse i r = Except.error e →
      (resolveLoop parse 0 rs)[i]? = some (SettleEvent.rejectedE i e)) := by
  intro parse rs
  refine ⟨resolveLoop_length parse 0 rs, ?_, ?_, ?_⟩
  · rw [resolveLoop_map_idx, List.range_eq_range']
  · intro i r h
    have hg := resolveLoop_getElem parse 0 i rs r h
    rw [Nat.zero_add] at hg
    exact hg
  · intro i r e h hp
    have hg := resolveLoop_getElem parse 0 i rs r h
    rw [Nat.zero_add, hp] at hg
    exact hg

/-- Witness for C8: with a parser failing on request 0 only, request 0 is
rejected and request 1 is still resolved. -/
theorem claim_C8_witness :
    (resolveLoop w8parse 0 w8rs)[0]? = some (SettleEvent.rejectedE 0 ("boom")) ∧
    (resolveLoop w8parse 0 w8rs)[1]? = some (SettleEvent.resolvedE 1 ("fine")) := by
  constructor
  · exact (claim_C8 w8parse w8rs).2.2.2 0 {} ("boom") (by rfl) (by rfl)
  · have hg := (claim_C8 w8parse w8rs).2.2.1 1 {} (by rfl)
    simpa [w8parse] using hg

/-- C9: with exactly as many decoded parts as pending requests the batch
settles every request (no count-mismatch failure); with any other count the
batch fails with the single batch-level error of batch.ts line 242, whose
value does not depend on any request's parser — so no parser has run. -/
theorem claim_C9 :
    ∀ (parse : Nat → MResponse → Except String String) (n : Nat) (rs : List MResponse),
    (rs.length = n →
      settleBatch parse n rs = Except.ok (resolveLoop parse 0 rs) ∧
      (resolveLoop parse 0 rs).length = n) ∧
    (rs.length ≠ n →
      settleBatch parse n rs =
        Except.error ("Could not properly parse responses to match requests in batch.") ∧
      (∀ parse2, settleBatch parse2 n rs = settleBatch parse n rs)) := by
  intro parse n rs
  constructor
  · intro h
    constructor
    · simp [settleBatch, h]
    · rw [resolveLoop_length, h]
  · intro h
    constructor
    · simp [settleBatch, h]
    · intro parse2
      simp [settleBatch, h]

/-- Witness for C9: two responses settle a two-request batch; against a
three-request batch the same responses yield the batch-level error. -/
theorem claim_C9_witness :
    settleBatch w8parse 2 w8rs = Except.ok (resolveLoop w8parse 0 w8rs) ∧
    settleBatch w8parse 3 w8rs =
      Except.error ("Could not properly parse responses to match requests in batch.") :=
  ⟨((claim_C9 w8parse 2 w8rs).1 (by rfl)).1, ((claim_C9 w8parse 3 w8rs).2 (by decide)).1⟩

/-- C3: `setRetry` increments `attempts` after every throttled attempt, and a
transport whose every attempt rejects with HTTP 503 makes the call fail after
exactly `retryCount = 7` transport attempts (six scheduled waits in between)
with the retry-count-exceeded error carrying the last response's status and
status text. -/
theorem claim_C3 :
    (∀ (r : MResponse) (ctx : RetryCtx),
      (setRetryModel r ctx).2.attempts = ctx.attempts + 1) ∧
    (∀ (stx bodyText : String),
      fetchRawModel (fun _ => FetchOutcome.rejected
          { status := 503, statusText := stx, headers := [], body := bodyText }) =
        { outcome := RetryOutcome.rejectedErr (retryExceededMsg 7 503 stx),
          waits := [100, 200, 400, 800, 1600, 3200], calls := 7 }) ∧
    retryExceededMsg 7 503 ("Service Unavailable") =
      "Retry count exceeded (7) for request. Response status: [503] Service Unavailable" := by
  refine ⟨?_, ?_, by decide⟩
  · intro r ctx
    unfold setRetryModel
    split <;> rfl
  · intro stx bodyText
    simp only [fetchRawModel]
    simp [retryLoop, setRetryModel, hhas, hget, jsToLower]

/-- C4: on a 429 response with a `Retry-After` header the wait is that many
seconds (in milliseconds) and the backoff delay is left unchanged; without the
header the wait is the current backoff which is then doubled; the backoff
starts at 100ms.  The `Retry-After: 2` stub resolves after one retry with a
single 2000ms wait (≥ 2000ms); the header-less stub shows the 100ms/200ms
doubling. -/
theorem claim_C4 :
    (∀ (r : MResponse) (ctx : RetryCtx), hhas r.headers ("Retry-After") = true →
      (setRetryModel r ctx).1 = jsParseInt (hget r.headers ("Retry-After")) * 1000 ∧
      (setRetryModel r ctx).2.delay = ctx.delay) ∧
    (∀ (r : MResponse) (ctx : RetryCtx), hhas r.headers ("Retry-After") = false →
      (setRetryModel r ctx).1 = ctx.delay ∧
      (setRetryModel r ctx).2.delay = ctx.delay * 2) ∧
    (fetchRawModel retryAfterStub =
      { outcome := RetryOutcome.resolvedR
          { status := 200, statusText := "OK", headers := [], body := "" },
        waits := [2000], calls := 2 } ∧ 2000 ≥ 2000) ∧
    fetchRawModel backoffStub =
      { outcome := RetryOutcome.resolvedR
          { status := 200, statusText := "OK", headers := [], body := "" },
        waits := [100, 200], calls := 3 } := by
  refine ⟨?_, ?_, ⟨?_, by omega⟩, ?_⟩
  · intro r ctx h
    unfold setRetryModel
    rw [if_pos h]
    exact ⟨rfl, rfl⟩
  · intro r ctx h
    unfold setRetryModel
    rw [if_neg (by simp [h])]
    exact ⟨rfl, rfl⟩
  · simp only [fetchRawModel]
    simp [retryLoop, setRetryModel, retryAfterStub, hhas, hget, jsParseInt, jsToLower]
  · simp only [fetchRawModel]
    simp [retryLoop, setRetryModel, backoffStub, hhas, hget, jsToLower]

/-- Witness for C4 at a response carrying `Retry-After: 2` and at one without
the header. -/
theorem claim_C4_witness :
    ((setRetryModel { status := 429, headers := [("Retry-After", "2")] }
        { attempts := 0, delay := 100, retryCount := 7 }).1 =
      jsParseInt (hget [("Retry-After", "2")] ("Retry-After")) * 1000 ∧
     (setRetryModel { status := 429, headers := [("Retry-After", "2")] }
        { attempts := 0, delay := 100, retryCount := 7 }).2.delay = 100) ∧
    ((setRetryModel { status := 429, headers := [] }
        { attempts := 0, delay := 100, retryCount := 7 }).1 = 100 ∧
     (setRetryModel { status := 429, headers := [] }
        { attempts := 0, delay := 100, retryCount := 7 }).2.delay = 200) :=
  ⟨claim_C4.1 { status := 429, headers := [("Retry-After", "2")] }
      { attempts := 0, delay := 100, retryCount := 7 } (by decide),
   claim_C4.2.1 { status := 429, headers := [] }
      { attempts := 0, delay := 100, retryCount := 7 } (by decide)⟩

/-- C5: on a cache hit with `now` strictly before the entry's expiration the
cached token is returned with zero network calls and an unchanged cache; once
`now ≥ expiration` (and likewise on a miss) the cached token is not returned —
instead exactly one refresh request is made, the freshly parsed value is
returned, and the entry for the (fetch client, web URL) key is replaced
wholesale by the new value expiring at `now +` the returned lifetime in
seconds. -/
theorem claim_C5 :
    ∀ (cache : DigestCache) (now fc : Nat) (webUrl : String) (refresh : String × Nat),
    (∀ cd : CachedDigest, cacheGet cache (fc, webUrl) = some cd → now < cd.expiration →
      digestCall cache now fc webUrl refresh =
        { value := cd.value, cache := cache, networkCalls := 0 }) ∧
    (∀ cd : CachedDigest, cacheGet cache (fc, webUrl) = some cd → cd.expiration ≤ now →
      digestCall cache now fc webUrl refresh =
        { value := refresh.1,
          cache := cacheSet cache (fc, webUrl)
            { expiration := now + refresh.2, value := refresh.1 },
          networkCalls := 1 } ∧
      cacheGet (digestCall cache now fc webUrl refresh).cache (fc, webUrl) =
        some { expiration := now + refresh.2, value := refresh.1 }) ∧
    (cacheGet cache (fc, webUrl) = none →
      digestCall cache now fc webUrl refresh =
        { value := refresh.1,
          cache := cacheSet cache (fc, webUrl)
            { expiration := now + refresh.2, value := refresh.1 },
          networkCalls := 1 } ∧
      cacheGet (digestCall cache now fc webUrl refresh).cache (fc, webUrl) =
        some { expiration := now + refresh.2, value := refresh.1 }) := by
  intro cache now fc webUrl refresh
  refine ⟨?_, ?_, ?_⟩
  · intro cd hcd hlt
    simp [digestCall, hcd, hlt]
  · intro cd hcd hge
    have h1 : digestCall cache now fc webUrl refresh =
        { value := refresh.1,
          cache := cacheSet cache (fc, webUrl)
            { expiration := now + refresh.2, value := refresh.1 },
          networkCalls := 1 } := by
      simp [digestCall, hcd, Nat.not_lt.mpr hge]
    refine ⟨h1, ?_⟩
    rw [h1]
    exact cacheGet_cacheSet cache (fc, webUrl) { expiration := now + refresh.2, value := refresh.1 }
  · intro hnone
    have h1 : digestCall cache now fc webUrl refresh =
        { value := refresh.1,
          cache := cacheSet cache (fc, webUrl)
            { expiration := now + refresh.2, value := refresh.1 },
          networkCalls := 1 } := by
      simp [digestCall, hnone]
    refine ⟨h1, ?_⟩
    rw [h1]
    exact cacheGet_cacheSet cache (fc, webUrl) { expiration := now + refresh.2, value := refresh.1 }

/-- Witness for C5: a hit inside the lifetime returns the cached token with no
network call; the same key queried at an instant past the expiration performs
one refresh and stores the fresh entry. -/
theorem claim_C5_witness :
    digestCall [((1, "https://w"), { expiration := 100, value := "tok" })] 50 1 ("https://w")
        ("fresh", 1800) =
      { value := "tok",
        cache := [((1, "https://w"), { expiration := 100, value := "tok" })],
        networkCalls := 0 } ∧
    digestCall [((1, "https://w"), { expiration := 100, value := "tok" })] 100 1 ("https://w")
        ("fresh", 1800) =
      { value := "fresh",
        cache := cacheSet [((1, "https://w"), { expiration := 100, value := "tok" })]
          (1, "https://w") { expiration := 1900, value := "fresh" },
        networkCalls := 1 } :=
  ⟨(claim_C5 [((1, "https://w"), { expiration := 100, value := "tok" })] 50 1 ("https://w")
      ("fresh", 1800)).1 { expiration := 100, value := "tok" } (by decide) (by decide),
   ((claim_C5 [((1, "https://w"), { expiration := 100, value := "tok" })] 100 1 ("https://w")
      ("fresh", 1800)).2.1 { expiration := 100, value := "tok" } (by decide) (by decide)).1⟩

/-- C6: a call through `SPHttpClient.fetch` with a truthy non-GET method whose
merged, defaulted headers carry neither `X-RequestDigest` nor `Authorization`
queries the digest cache at the endpoint root derived from the call's URL and
sends with the token attached as `X-RequestDigest`; a GET (or methodless) call,
or one already carrying either header, queries no digest and sends the headers
unchanged; the digest-issuance call itself is a POST built for the raw path
whose headers carry no `X-RequestDigest` (provided the global config headers
carry none), and the raw path adds no header names at all — so no recursion
can attach a digest to the issuance call. -/
theorem claim_C6 :
    (∀ (gh lh : List (String × String)) (mn : String) (ex : String → String) (url dv m : String),
      m ≠ "" → jsToUpper m ≠ "GET" →
      hhas (spFetchHeaders gh lh mn) ("X-RequestDigest") = false →
      hhas (spFetchHeaders gh lh mn) ("Authorization") = false →
      (spFetchModel gh lh (some m) mn ex url dv).digestQuery = some (ex url) ∧
      hhas (spFetchModel gh lh (some m) mn ex url dv).sentHeaders ("X-RequestDigest") = true) ∧
    (∀ (gh lh : List (String × String)) (mn : String) (ex : String → String) (url dv m : String),
      jsToUpper m = "GET" →
      spFetchModel gh lh (some m) mn ex url dv =
        { sentHeaders := fetchRawHeadersM (spFetchHeaders gh lh mn), digestQuery := none }) ∧
    (∀ (gh lh : List (String × String)) (mn : String) (ex : String → String) (url dv : String),
      spFetchModel gh lh none mn ex url dv =
        { sentHeaders := fetchRawHeadersM (spFetchHeaders gh lh mn), digestQuery := none }) ∧
    (∀ (gh lh : List (String × String)) (mn : String) (ex : String → String) (url dv m : String),
      hhas (spFetchHeaders gh lh mn) ("X-RequestDigest") = true →
      spFetchModel gh lh (some m) mn ex url dv =
        { sentHeaders := fetchRawHeadersM (spFetchHeaders gh lh mn), digestQuery := none }) ∧
    (∀ (gh lh : List (String × String)) (mn : String) (ex : String → String) (url dv m : String),
      hhas (spFetchHeaders gh lh mn) ("Authorization") = true →
      spFetchModel gh lh (some m) mn ex url dv =
        { sentHeaders := fetchRawHeadersM (spFetchHeaders gh lh mn), digestQuery := none }) ∧
    (∀ (webUrl : String) (gh : List (String × String)),
      hhas gh ("X-RequestDigest") = false →
      hhas (contextinfoCall webUrl gh).headers ("X-RequestDigest") = false ∧
      (contextinfoCall webUrl gh).method = "POST") ∧
    (∀ (hs : List (String × String)) (n : String), hhas (fetchRawHeadersM hs) n = hhas hs n) := by
  refine ⟨?_, ?_, ?_, ?_, ?_, ?_, hhas_fetchRawHeadersM⟩
  · intro gh lh mn ex url dv m hm hget hd ha
    constructor
    · simp [spFetchModel, hm, hget, hd, ha]
    · simp only [spFetchModel, hm, hget, hd, ha]
      simp only [ne_eq, hget, decide_not, Bool.not_false, Bool.and_true, decide_True,
        Bool.true_and]
      rw [if_pos (by simp [hm, hget, hd, ha])]
      rw [hhas_fetchRawHeadersM]
      simp [hhas, happend, List.any_append]
  · intro gh lh mn ex url dv m hm
    simp [spFetchModel, hm]
  · intro gh lh mn ex url dv
    simp [spFetchModel]
  · intro gh lh mn ex url dv m hd
    simp [spFetchModel, hd]
  · intro gh lh mn ex url dv m ha
    simp [spFetchModel, ha]
  · intro webUrl gh h
    refine ⟨?_, rfl⟩
    exact hhas_assignNoOverwrite_false _ gh _ (by decide) h

/-- Witness for C6 at a POST with empty global and local headers (the digest is
fetched and attached), at a GET (no digest), and at the issuance call built
against empty global headers. -/
theorem claim_C6_witness :
    ((spFetchModel [] [] (some "POST") ("tag") id ("https://s/x") ("D")).digestQuery =
        some ("https://s/x") ∧
      hhas (spFetchModel [] [] (some "POST") ("tag") id ("https://s/x") ("D")).sentHeaders
        ("X-RequestDigest") = true) ∧
    spFetchModel [] [] (some "GET") ("tag") id ("https://s/x") ("D") =
      { sentHeaders := fetchRawHeadersM (spFetchHeaders [] [] ("tag")), digestQuery := none } ∧
    hhas (contextinfoCall ("https://s") []).headers ("X-RequestDigest") = false :=
  ⟨claim_C6.1 [] [] ("tag") id ("https://s/x") ("D") ("POST") (by decide) (by decide)
      (by decide) (by decide),
   claim_C6.2.1 [] [] ("tag") id ("https://s/x") ("D") ("GET") (by decide),
   (claim_C6.2.2.2.2.2.1 ("https://s") [] (by decide)).1⟩

/-- C7: the encoder walks the requests in order — every GET closes any open
changeset and opens a fresh top-level batch part, every non-GET opens a new
changeset (consuming a fresh changeset id) when none is open and otherwise
joins the current one, and the last open changeset is closed before the final
batch close marker: the emitted body equals rendering the outline that groups
each maximal run of consecutive writes into one changeset.  In particular
`[GET /a, POST /b, POST /c, GET /d]` outlines as one top-level part for `/a`,
one changeset holding `/b` and `/c`, and one top-level part for `/d`, in that
order. -/
theorem claim_C7 :
    (∀ (bid : String) (guid : Nat → String) (gh : List (String × String))
        (absUrl : String) (reqs : List BatchReqInfo), (∀ k, guid k ≠ "") →
      buildBatchBody bid guid gh absUrl reqs =
        renderOutline bid gh absUrl 0 (groupRequests guid 0 reqs)) ∧
    (∀ guid : Nat → String, groupRequests guid 0 [reqA, reqB, reqC, reqD] =
      [OutlineItem.part reqA, OutlineItem.changeset (guid 0) [reqB, reqC],
        OutlineItem.part reqD]) := by
  constructor
  · intro bid guid gh absUrl reqs hguid
    exact encodeBodyLoop_eq_render bid guid gh absUrl hguid reqs.length reqs (le_refl _) 0 0
  · intro guid
    simp [groupRequests, reqA, reqB, reqC, reqD, isWrite, List.takeWhile, List.dropWhile]

/-- Witness for C7 with a constant nonempty changeset-id supply. -/
theorem claim_C7_witness :
    buildBatchBody ("B") (fun _ => "G") [] ("https://x") [reqA, reqB, reqC, reqD] =
      renderOutline ("B") [] ("https://x") 0
        (groupRequests (fun _ => "G") 0 [reqA, reqB, reqC, reqD]) :=
  claim_C7.1 ("B") (fun _ => "G") [] ("https://x") [reqA, reqB, reqC, reqD]
    (fun k => by simp)

end PnpSP
